import Mathlib

/-!
# Verification of the HSRP validation core (`Hssrp_Validation.py`)

Shallow embedding of the two pure functions of the repository:

* `HSRPValidator.parse_show_standby_brief` — parses the text of a
  `show standby brief` command into a mapping group → lowercase state;
* `HSRPValidator.validate_hsrp` — reconciles that mapping against a list of
  per-group expectations and produces a per-group verdict record.

Modelling decisions:

* Python `dict` values are modelled as association lists without duplicate
  keys, with `dget?` (Python `d.get(k)` / `d.get(k, default)` via `Option.getD`)
  and `dinsert` (Python `d[k] = v`: replace-in-place when the key is present,
  append otherwise, matching insertion-ordered dict update).
* Python strings are Lean `String` (a structure over `List Char`); line and
  token manipulation is done on the underlying character lists.  `str.lower()`
  is modelled per-character with `Char.toLower` (ASCII case folding; the
  inputs of interest are ASCII).  `str.splitlines()` is modelled as splitting
  on the line-break characters LF and CR; the rarer Unicode line boundaries
  Python also recognises are not modelled, and are irrelevant to the claims.
* The regex `(\S+)\s+(\S+)\s+(\d+)\s+(\S+)\s+(\S+)\s+(\S+)\s+(\S+)` applied
  with `re.match` (anchored at the start of the line only) succeeds exactly
  when the line starts with a non-whitespace character, splits into at least
  seven whitespace-delimited tokens, and its third token consists entirely of
  decimal digits: the alternation of `\S+`/`\s+` groups forces the regex
  groups to align with maximal non-whitespace runs, `\d+` followed by `\s+`
  must consume the whole third token, and nothing anchors the end of the
  line, so trailing tokens beyond the seventh are ignored.  `matchLine` below
  embeds exactly this success condition together with the extraction of
  groups 2 and 4 performed by the source.  Intra-line whitespace (`\s`) is
  modelled as space and tab (the ASCII whitespace possible inside a line once
  line breaks are removed).
-/

/-- Whitespace inside a line, as matched by the regex class `\s`
(space and horizontal tab; line breaks cannot occur inside a line). -/
def isWS (c : Char) : Bool :=
  c == ' ' || c == '\t'

/-- Line-break characters recognised by Python `str.splitlines` that we
model (LF and CR; `\r\n` thus yields one extra empty line, which is
harmless because an empty line never matches the record pattern). -/
def isLineBreak (c : Char) : Bool :=
  c == '\n' || c == '\r'

/-- Split a character list at every character satisfying `p`, keeping empty
pieces (the behaviour of Python `re.split` on single characters). -/
def splitOnPred (p : Char → Bool) : List Char → List (List Char)
  | [] => [[]]
  | c :: cs =>
    if p c then [] :: splitOnPred p cs
    else
      match splitOnPred p cs with
      | [] => [[c]]
      | t :: ts => (c :: t) :: ts

/-- The lines of a text, Python `output.splitlines()`. -/
def splitLines (cs : List Char) : List (List Char) :=
  splitOnPred isLineBreak cs

/-- The whitespace-delimited tokens of a line: maximal non-whitespace runs. -/
def tokenizeCh (cs : List Char) : List (List Char) :=
  (splitOnPred isWS cs).filter (fun t => t ≠ [])

/-- Per-character lowercase of a token, Python `str.lower` (ASCII). -/
def toLowerCh (cs : List Char) : List Char :=
  cs.map Char.toLower

/-- Python `str.lower` on a `String` (ASCII case folding). -/
def toLowerStr (s : String) : String :=
  String.mk (toLowerCh s.data)

/-- Whether the line starts with a non-whitespace character — required by
`re.match`, which anchors the first `(\S+)` at position 0. -/
def headNonWS : List Char → Bool
  | [] => false
  | c :: _ => !isWS c

/-- Lookup in a Python dict modelled as an association list:
`d.get(k)` (first binding of the key wins; `dinsert` keeps keys unique). -/
def dget? {κ α : Type} [DecidableEq κ] (k : κ) : List (κ × α) → Option α
  | [] => none
  | (k', v) :: rest => if k' = k then some v else dget? k rest

/-- Update of a Python dict modelled as an association list: `d[k] = v`
replaces the binding in place when the key exists, else appends. -/
def dinsert {κ α : Type} [DecidableEq κ] (k : κ) (v : α) :
    List (κ × α) → List (κ × α)
  | [] => [(k, v)]
  | (k', v') :: rest =>
    if k' = k then (k, v) :: rest else (k', v') :: dinsert k v rest

/-- The match-and-extract step the source performs on one line:
`re.match(r"(\S+)\s+(\S+)\s+(\d+)\s+(\S+)\s+(\S+)\s+(\S+)\s+(\S+)", line)`
followed by `match.group(2), match.group(4).lower()`.  As argued in the file
header, the anchored regex succeeds exactly when the line starts with a
non-whitespace character, has at least seven whitespace-delimited tokens
(the trailing `_` absorbs any extra tokens, since the pattern is not
anchored at the end of the line), and the third token is all decimal
digits; group 2 of the regex is the second token and group 4 the fourth. -/
def matchLine (line : List Char) : Option (List Char × List Char) :=
  if headNonWS line then
    match tokenizeCh line with
    | _ :: group :: priority :: state :: _ :: _ :: _ :: _ =>
      if priority.all Char.isDigit then some (group, toLowerCh state) else none
    | _ => none
  else none

/-- One iteration of the parser loop body:
`if match: standby_data[group] = state`. -/
def pstep (standby_data : List (String × String)) (line : List Char) :
    List (String × String) :=
  match matchLine line with
  | some (group, state) => dinsert (String.mk group) (String.mk state) standby_data
  | none => standby_data

/-- `HSRPValidator.parse_show_standby_brief(output)`: fold the per-line
match-and-store step over `output.splitlines()`, starting from `{}`. -/
def parse_show_standby_brief (output : String) : List (String × String) :=
  (splitLines output.data).foldl pstep []

/-- One expectation entry (`condition` in the source): a dict with key
`'Group'` and the optional keys `'ExpectedActiveState'` and
`'ExpectedStandbyState'`, whose absence the source reads as `''`
(`condition.get(..., '')`). -/
structure Condition where
  Group : String
  ExpectedActiveState : String := ""
  ExpectedStandbyState : String := ""
deriving DecidableEq

/-- One per-group verdict record: a dict with the optional keys `'Active'`
and `'Standby'` (the spec's `activeResult` / `standbyResult`). -/
structure Verdict where
  Active : Option String := none
  Standby : Option String := none
deriving DecidableEq

/-- One iteration of the validator loop body over a `condition`.  Mirrors the
source exactly: the `expected_active` branch assigns a fresh one-field record
`{"Active": ...}` to the composite key, while the `expected_standby` branch
merges into the record currently stored at the key
(`{**results.get(key, {}), "Standby": ...}`). -/
def vstep (standby_data : List (String × String)) (device_name : String)
    (results : List (String × Verdict)) (condition : Condition) :
    List (String × Verdict) :=
  let group := condition.Group
  let expected_active := toLowerStr condition.ExpectedActiveState
  let expected_standby := toLowerStr condition.ExpectedStandbyState
  let actual_state := (dget? group standby_data).getD ""
  let results1 :=
    if expected_active ≠ "" then
      dinsert ("grp" ++ group)
        { Active := some (if actual_state = "active" then "pass"
            else "Failed : " ++ device_name ++ " No longer Active"),
          Standby := none } results
    else results
  if expected_standby ≠ "" then
    dinsert ("grp" ++ group)
      { (dget? ("grp" ++ group) results1).getD {} with
        Standby := some (if actual_state = "standby" then "pass"
          else "Failed : " ++ device_name ++ " No longer Standby") } results1
  else results1

/-- `HSRPValidator.validate_hsrp(standby_data, expected_conditions,
device_name)`: fold the per-condition step over the expectation list,
starting from `{}`. -/
def validate_hsrp (standby_data : List (String × String))
    (expected_conditions : List Condition) (device_name : String) :
    List (String × Verdict) :=
  expected_conditions.foldl (vstep standby_data device_name) []

/-! ## Helper lemmas about the dict model and strings -/

theorem dget?_dinsert_self {κ α : Type} [DecidableEq κ] (k : κ) (v : α)
    (l : List (κ × α)) : dget? k (dinsert k v l) = some v := by
  induction l with
  | nil => simp [dinsert, dget?]
  | cons p rest ih =>
    obtain ⟨k', v'⟩ := p
    by_cases h : k' = k
    · simp [dinsert, dget?, h]
    · simp [dinsert, dget?, h, ih]

theorem dget?_dinsert_ne {κ α : Type} [DecidableEq κ] {k k' : κ} (v : α)
    (l : List (κ × α)) (h : k' ≠ k) :
    dget? k (dinsert k' v l) = dget? k l := by
  induction l with
  | nil => simp [dinsert, dget?, h]
  | cons p rest ih =>
    obtain ⟨k0, v0⟩ := p
    by_cases h0 : k0 = k'
    · subst h0
      simp [dinsert, dget?, h]
    · by_cases h1 : k0 = k
      · subst h1
        simp [dinsert, dget?, Ne.symm h]
      · simp [dinsert, dget?, h0, h1, ih]

theorem dget?_dinsert_isSome {κ α : Type} [DecidableEq κ] (k k' : κ) (v : α)
    (l : List (κ × α)) :
    (dget? k (dinsert k' v l)).isSome = true ↔
      k = k' ∨ (dget? k l).isSome = true := by
  by_cases h : k = k'
  · subst h
    simp [dget?_dinsert_self]
  · rw [dget?_dinsert_ne v l (fun he => h he.symm)]
    simp [h]

theorem mem_keys_dinsert {κ α : Type} [DecidableEq κ] {a k : κ} {v : α}
    {l : List (κ × α)} (h : a ∈ (dinsert k v l).map Prod.fst) :
    a = k ∨ a ∈ l.map Prod.fst := by
  induction l with
  | nil => simpa [dinsert] using h
  | cons p rest ih =>
    obtain ⟨k0, v0⟩ := p
    by_cases h0 : k0 = k
    · subst h0
      simpa [dinsert] using h
    · simp only [dinsert, if_neg h0, List.map_cons, List.mem_cons] at h
      rcases h with h | h
      · exact Or.inr (by simp [h])
      · rcases ih h with h | h
        · exact Or.inl h
        · exact Or.inr (by simp [h])

theorem nodup_keys_dinsert {κ α : Type} [DecidableEq κ] (k : κ) (v : α)
    {l : List (κ × α)} (h : (l.map Prod.fst).Nodup) :
    ((dinsert k v l).map Prod.fst).Nodup := by
  induction l with
  | nil => simp [dinsert]
  | cons p rest ih =>
    obtain ⟨k0, v0⟩ := p
    simp only [List.map_cons, List.nodup_cons] at h
    by_cases h0 : k0 = k
    · subst h0
      simpa [dinsert] using h
    · simp only [dinsert, if_neg h0, List.map_cons, List.nodup_cons]
      refine ⟨fun hmem => ?_, ih h.2⟩
      rcases mem_keys_dinsert hmem with h1 | h1
      · exact h0 h1
      · exact h.1 h1

theorem str_data_inj {a b : String} (h : a.data = b.data) : a = b := by
  cases a
  cases b
  exact congrArg String.mk h

theorem str_append_data (a b : String) : (a ++ b).data = a.data ++ b.data := rfl

theorem string_mk_inj {a b : List Char} (h : String.mk a = String.mk b) :
    a = b :=
  congrArg String.data h

theorem grp_key_inj {g1 g2 : String} (h : ("grp" ++ g1 : String) = "grp" ++ g2) :
    g1 = g2 := by
  have hd : ("grp" ++ g1 : String).data = ("grp" ++ g2 : String).data := by rw [h]
  rw [str_append_data, str_append_data] at hd
  exact str_data_inj (List.append_cancel_left hd)

theorem toLowerStr_eq_empty_iff (s : String) : toLowerStr s = "" ↔ s = "" := by
  constructor
  · intro h
    have hd : (toLowerStr s).data = ("" : String).data := by rw [h]
    simp only [toLowerStr, toLowerCh] at hd
    have : s.data = [] := by
      cases hs : s.data with
      | nil => rfl
      | cons c cs => rw [hs] at hd; simp at hd
    exact str_data_inj (by simpa using this)
  · intro h
    subst h
    rfl

/-! ## Helper lemmas about the parser -/

theorem matchLine_eq_some_of_shape {line t1 g pr st a5 a6 a7 : List Char}
    {more : List (List Char)}
    (htoks : tokenizeCh line = t1 :: g :: pr :: st :: a5 :: a6 :: a7 :: more)
    (hhead : headNonWS line = true)
    (hpr : pr.all Char.isDigit = true) :
    matchLine line = some (g, toLowerCh st) := by
  simp [matchLine, hhead, htoks, hpr]

theorem shape_of_matchLine_eq_some {line g s : List Char}
    (h : matchLine line = some (g, s)) :
    headNonWS line = true ∧
      ∃ t1 pr st a5 a6 a7 more,
        tokenizeCh line = t1 :: g :: pr :: st :: a5 :: a6 :: a7 :: more ∧
        pr.all Char.isDigit = true ∧ s = toLowerCh st := by
  by_cases hh : headNonWS line
  · refine ⟨hh, ?_⟩
    rcases htoks : tokenizeCh line with
      _ | ⟨t1, _ | ⟨x2, _ | ⟨x3, _ | ⟨x4, _ | ⟨x5, _ | ⟨x6, _ | ⟨x7, more⟩⟩⟩⟩⟩⟩⟩ <;>
      simp only [matchLine, hh, if_true, htoks] at h
    · exact absurd h (by simp)
    · exact absurd h (by simp)
    · exact absurd h (by simp)
    · exact absurd h (by simp)
    · exact absurd h (by simp)
    · exact absurd h (by simp)
    · exact absurd h (by simp)
    · by_cases hd : x3.all Char.isDigit
      · rw [if_pos hd] at h
        obtain ⟨hg, hs⟩ := Prod.mk.injEq .. ▸ Option.some.inj h
        exact ⟨t1, x3, x4, x5, x6, x7, more, by rw [hg], hd, hs.symm⟩
      · rw [if_neg hd] at h
        exact absurd h (by simp)
  · simp [matchLine, hh] at h

theorem foldl_pstep_id (lines : List (List Char)) :
    ∀ acc, (∀ l ∈ lines, matchLine l = none) → lines.foldl pstep acc = acc := by
  induction lines with
  | nil => intro acc _; rfl
  | cons l ls ih =>
    intro acc h
    have hl : pstep acc l = acc := by simp [pstep, h l (by simp)]
    rw [List.foldl_cons, hl]
    exact ih acc (fun x hx => h x (by simp [hx]))

theorem foldl_pstep_preserve (g : List Char) (lines : List (List Char)) :
    ∀ acc, (∀ l ∈ lines, ∀ g2 s2, matchLine l = some (g2, s2) → g2 ≠ g) →
      dget? (String.mk g) (lines.foldl pstep acc) = dget? (String.mk g) acc := by
  induction lines with
  | nil => intro acc _; rfl
  | cons l ls ih =>
    intro acc h
    rw [List.foldl_cons, ih _ (fun x hx => h x (by simp [hx]))]
    cases hm : matchLine l with
    | none => simp [pstep, hm]
    | some gs =>
      obtain ⟨g2, s2⟩ := gs
      have hne : String.mk g2 ≠ String.mk g :=
        fun he => h l (by simp) g2 s2 hm (string_mk_inj he)
      simp [pstep, hm, dget?_dinsert_ne _ _ hne]

theorem dget?_foldl_pstep_isSome (k : String) (lines : List (List Char)) :
    ∀ acc, (dget? k (lines.foldl pstep acc)).isSome = true ↔
      (dget? k acc).isSome = true ∨
      ∃ l ∈ lines, ∃ g s, matchLine l = some (g, s) ∧ k = String.mk g := by
  induction lines with
  | nil => intro acc; simp
  | cons l ls ih =>
    intro acc
    rw [List.foldl_cons, ih (pstep acc l)]
    cases hm : matchLine l with
    | none =>
      constructor
      · rintro (h | ⟨x, hx, g2, s2, hgs, hk⟩)
        · exact Or.inl (by simpa [pstep, hm] using h)
        · exact Or.inr ⟨x, by simp [hx], g2, s2, hgs, hk⟩
      · rintro (h | ⟨x, hx, g2, s2, hgs, hk⟩)
        · exact Or.inl (by simpa [pstep, hm] using h)
        · rcases List.mem_cons.mp hx with rfl | hx2
          · rw [hm] at hgs
            exact absurd hgs (by simp)
          · exact Or.inr ⟨x, hx2, g2, s2, hgs, hk⟩
    | some gs =>
      obtain ⟨g, s⟩ := gs
      have hp : pstep acc l = dinsert (String.mk g) (String.mk s) acc := by
        simp [pstep, hm]
      rw [hp]
      constructor
      · rintro (h | ⟨x, hx, g2, s2, hgs, hk⟩)
        · rcases (dget?_dinsert_isSome k (String.mk g) (String.mk s) acc).mp h with
            he | hs2
          · exact Or.inr ⟨l, by simp, g, s, hm, he⟩
          · exact Or.inl hs2
        · exact Or.inr ⟨x, by simp [hx], g2, s2, hgs, hk⟩
      · rintro (h | ⟨x, hx, g2, s2, hgs, hk⟩)
        · exact Or.inl
            ((dget?_dinsert_isSome k (String.mk g) (String.mk s) acc).mpr (Or.inr h))
        · rcases List.mem_cons.mp hx with rfl | hx2
          · rw [hm] at hgs
            obtain ⟨hg, _⟩ := Prod.mk.injEq .. ▸ Option.some.inj hgs
            exact Or.inl ((dget?_dinsert_isSome k (String.mk g) (String.mk s) acc).mpr
              (Or.inl (by rw [hk, hg])))
          · exact Or.inr ⟨x, hx2, g2, s2, hgs, hk⟩

theorem nodup_keys_foldl_pstep (lines : List (List Char)) :
    ∀ acc : List (String × String), (acc.map Prod.fst).Nodup →
      ((lines.foldl pstep acc).map Prod.fst).Nodup := by
  induction lines with
  | nil => intro acc h; exact h
  | cons l ls ih =>
    intro acc h
    rw [List.foldl_cons]
    refine ih _ ?_
    cases hm : matchLine l with
    | none => simpa [pstep, hm] using h
    | some gs =>
      obtain ⟨g, s⟩ := gs
      simpa [pstep, hm] using nodup_keys_dinsert (String.mk g) (String.mk s) h

/-! ## Helper lemmas about the validator

The value the source computes for the `'Active'` field of group `g` depends
only on `standby_data`, the device name and the group, so processing further
expectation entries for the same group rewrites it with the same value (the
`expected_active` branch) or keeps it (the `expected_standby` branch merges).
-/

theorem vstep_active_preserve (sd : List (String × String)) (dev : String)
    (g : String) (c : Condition) (acc : List (String × Verdict))
    (h : ∃ gv, dget? ("grp" ++ g) acc = some gv ∧
      gv.Active = some (if (dget? g sd).getD "" = "active" then "pass"
        else "Failed : " ++ dev ++ " No longer Active")) :
    ∃ gv, dget? ("grp" ++ g) (vstep sd dev acc c) = some gv ∧
      gv.Active = some (if (dget? g sd).getD "" = "active" then "pass"
        else "Failed : " ++ dev ++ " No longer Active") := by
  obtain ⟨gv, hget, hact⟩ := h
  by_cases hg : c.Group = g
  · subst hg
    simp only [vstep]
    by_cases hA : toLowerStr c.ExpectedActiveState = ""
    · rw [if_neg (not_not_intro hA)]
      by_cases hS : toLowerStr c.ExpectedStandbyState = ""
      · rw [if_neg (not_not_intro hS)]
        exact ⟨gv, hget, hact⟩
      · rw [if_pos hS, hget]
        exact ⟨_, dget?_dinsert_self _ _ _, hact⟩
    · rw [if_pos hA]
      by_cases hS : toLowerStr c.ExpectedStandbyState = ""
      · rw [if_neg (not_not_intro hS)]
        exact ⟨_, dget?_dinsert_self _ _ _, rfl⟩
      · rw [if_pos hS, dget?_dinsert_self]
        exact ⟨_, rfl, by rw [dget?_dinsert_self]; exact rfl⟩
  · have hkne : ("grp" ++ c.Group : String) ≠ "grp" ++ g :=
      fun he => hg (grp_key_inj he)
    simp only [vstep]
    by_cases hA : toLowerStr c.ExpectedActiveState = ""
    · rw [if_neg (not_not_intro hA)]
      by_cases hS : toLowerStr c.ExpectedStandbyState = ""
      · rw [if_neg (not_not_intro hS)]
        exact ⟨gv, hget, hact⟩
      · rw [if_pos hS, dget?_dinsert_ne _ _ hkne]
        exact ⟨gv, hget, hact⟩
    · rw [if_pos hA]
      by_cases hS : toLowerStr c.ExpectedStandbyState = ""
      · rw [if_neg (not_not_intro hS), dget?_dinsert_ne _ _ hkne]
        exact ⟨gv, hget, hact⟩
      · rw [if_pos hS, dget?_dinsert_ne _ _ hkne, dget?_dinsert_ne _ _ hkne]
        exact ⟨gv, hget, hact⟩

theorem vstep_active_establish (sd : List (String × String)) (dev : String)
    (c : Condition) (acc : List (String × Verdict))
    (hA : toLowerStr c.ExpectedActiveState ≠ "") :
    ∃ gv, dget? ("grp" ++ c.Group) (vstep sd dev acc c) = some gv ∧
      gv.Active = some (if (dget? c.Group sd).getD "" = "active" then "pass"
        else "Failed : " ++ dev ++ " No longer Active") := by
  simp only [vstep]
  rw [if_pos hA]
  by_cases hS : toLowerStr c.ExpectedStandbyState = ""
  · rw [if_neg (not_not_intro hS)]
    exact ⟨_, dget?_dinsert_self _ _ _, rfl⟩
  · rw [if_pos hS, dget?_dinsert_self]
    exact ⟨_, rfl, by rw [dget?_dinsert_self]; exact rfl⟩

theorem foldl_vstep_active_preserve (sd : List (String × String)) (dev : String)
    (g : String) (conds : List Condition) :
    ∀ acc, (∃ gv, dget? ("grp" ++ g) acc = some gv ∧
        gv.Active = some (if (dget? g sd).getD "" = "active" then "pass"
          else "Failed : " ++ dev ++ " No longer Active")) →
      ∃ gv, dget? ("grp" ++ g) (conds.foldl (vstep sd dev) acc) = some gv ∧
        gv.Active = some (if (dget? g sd).getD "" = "active" then "pass"
          else "Failed : " ++ dev ++ " No longer Active") := by
  induction conds with
  | nil => intro acc h; exact h
  | cons c cs ih =>
    intro acc h
    rw [List.foldl_cons]
    exact ih _ (vstep_active_preserve sd dev g c acc h)

theorem vstep_active_none_preserve (sd : List (String × String)) (dev : String)
    (g : String) (c : Condition) (acc : List (String × Verdict))
    (hc : c.Group = g → toLowerStr c.ExpectedActiveState = "")
    (h : ∀ gv, dget? ("grp" ++ g) acc = some gv → gv.Active = none) :
    ∀ gv, dget? ("grp" ++ g) (vstep sd dev acc c) = some gv → gv.Active = none := by
  by_cases hg : c.Group = g
  · subst hg
    simp only [vstep]
    rw [if_neg (not_not_intro (hc rfl))]
    by_cases hS : toLowerStr c.ExpectedStandbyState = ""
    · rw [if_neg (not_not_intro hS)]
      exact h
    · rw [if_pos hS]
      intro gv hgv
      rw [dget?_dinsert_self] at hgv
      cases Option.some.inj hgv
      cases hacc : dget? ("grp" ++ c.Group) acc with
      | none => simp [hacc]
      | some gv0 => simp [hacc, h gv0 hacc]
  · have hkne : ("grp" ++ c.Group : String) ≠ "grp" ++ g :=
      fun he => hg (grp_key_inj he)
    simp only [vstep]
    intro gv hgv
    split_ifs at hgv
    all_goals (try rw [dget?_dinsert_ne _ _ hkne] at hgv)
    all_goals (try rw [dget?_dinsert_ne _ _ hkne] at hgv)
    all_goals exact h gv hgv

theorem foldl_vstep_active_none (sd : List (String × String)) (dev : String)
    (g : String) (conds : List Condition) :
    ∀ acc, (∀ c ∈ conds, c.Group = g → toLowerStr c.ExpectedActiveState = "") →
      (∀ gv, dget? ("grp" ++ g) acc = some gv → gv.Active = none) →
      ∀ gv, dget? ("grp" ++ g) (conds.foldl (vstep sd dev) acc) = some gv →
        gv.Active = none := by
  induction conds with
  | nil => intro acc _ h; exact h
  | cons c cs ih =>
    intro acc hconds h
    rw [List.foldl_cons]
    exact ih _ (fun x hx => hconds x (by simp [hx]))
      (vstep_active_none_preserve sd dev g c acc (hconds c (by simp)) h)

/-! ## Claim theorems -/

/-- C1: the claim states that for two expectation entries for the same group —
one with only expectActive set and one with only expectStandby set, in either
order — the later entry sets only its own field and leaves the field written
by the earlier entry untouched, never replacing the whole record.  The code
violates this in the standby-first order: evaluating `validate_hsrp` on the
observed state group 1 → "standby" with the standby-only entry first shows
that the `expected_active` branch then assigns a fresh one-field record to
key "grp1", erasing the previously computed Standby verdict "pass"; claimed
result would keep both fields. -/
theorem hsrp_c1_standby_then_active_clobbers :
    validate_hsrp [("1", "standby")]
      [⟨"1", "", "Standby"⟩, ⟨"1", "Active", ""⟩] "CPE1" =
      [("grp1", { Active := some "Failed : CPE1 No longer Active",
                  Standby := none })] := by
  decide

/-- C2: the claim states that `validate_hsrp` applied to any permutation of the
expectation list produces the same DeviceResult mapping.  The code violates
this: the two orders of the same two entries (a permutation, first conjunct)
give different values at key "grp1" (second conjunct) — active-first keeps
both fields, standby-first loses the Standby verdict to the fresh record
assigned by the `expected_active` branch. -/
theorem hsrp_c2_order_dependent :
    ([⟨"1", "Active", ""⟩, ⟨"1", "", "Standby"⟩] : List Condition).Perm
      [⟨"1", "", "Standby"⟩, ⟨"1", "Active", ""⟩] ∧
    dget? "grp1" (validate_hsrp [("1", "standby")]
        [⟨"1", "Active", ""⟩, ⟨"1", "", "Standby"⟩] "CPE1") ≠
      dget? "grp1" (validate_hsrp [("1", "standby")]
        [⟨"1", "", "Standby"⟩, ⟨"1", "Active", ""⟩] "CPE1") :=
  ⟨List.Perm.swap _ _ _, by decide⟩

/-- C4 counterexample: the claim states that every well-formed
seven-whitespace-delimited-token line is mapped (2nd token → lowercased 4th
token).  This concrete line has exactly seven tokens, yet the parser omits it
(the regex additionally requires the third token to be all decimal digits,
and here it is "x"), so the resulting mapping is empty. -/
theorem hsrp_c4_seven_tokens_not_sufficient :
    (tokenizeCh ("Gi0/1 1 x Active 10.0.0.1 10.0.0.2 10.0.0.254".data)).length
        = 7 ∧
    parse_show_standby_brief "Gi0/1 1 x Active 10.0.0.1 10.0.0.2 10.0.0.254"
        = [] := by
  decide

/-- C5 counterexample: the claim states a line contributes an entry if and
only if it consists of exactly seven whitespace-delimited tokens.  This
concrete line has eight tokens (first conjunct), yet it still contributes
"1" → "active" (second conjunct): `re.match` is not anchored at the end of
the line, so trailing tokens beyond the seventh are ignored. -/
theorem hsrp_c5_exactly_seven_iff_fails :
    (tokenizeCh
        ("Gi0/1 1 110 Active 10.0.0.1 10.0.0.2 10.0.0.254 extra".data)).length
        = 8 ∧
    parse_show_standby_brief
        "Gi0/1 1 110 Active 10.0.0.1 10.0.0.2 10.0.0.254 extra"
        = [("1", "active")] := by
  decide

/-- C9: the core is total and all degenerate inputs yield well-defined result
values (both functions are total Lean functions by construction): empty text
parses to the empty mapping, text in which no line matches the record
pattern parses to the empty mapping, and an empty expectation list validates
to the empty result. -/
theorem hsrp_c9_total :
    parse_show_standby_brief "" = [] ∧
    (∀ output : String,
        (∀ line ∈ splitLines output.data, matchLine line = none) →
        parse_show_standby_brief output = []) ∧
    (∀ (sd : List (String × String)) (dev : String),
        validate_hsrp sd [] dev = []) := by
  refine ⟨by decide, ?_, ?_⟩
  · intro output h
    exact foldl_pstep_id (splitLines output.data) [] h
  · intro sd dev
    rfl

/-- C9 witness: instantiating the second conjunct at a completely unparseable
text yields the empty mapping. -/
theorem hsrp_c9_total_witness :
    parse_show_standby_brief "P indicates configured to preempt.\n" = [] :=
  hsrp_c9_total.2.1 "P indicates configured to preempt.\n" (by decide)

/-- C10: implicit digit constraint on the third field — a line whose third
whitespace-delimited token contains any non-digit character never matches the
record pattern (the regex field `\d+` must consume the whole third token),
even when the line has exactly seven tokens, so such a line contributes
nothing to the parsed mapping. -/
theorem hsrp_c10_priority_digits :
    ∀ (line pr : List Char),
      (tokenizeCh line).get? 2 = some pr →
      pr.all Char.isDigit = false →
      matchLine line = none := by
  intro line pr h2 hd
  by_cases hh : headNonWS line
  · rcases htoks : tokenizeCh line with
      _ | ⟨t1, _ | ⟨x2, _ | ⟨x3, _ | ⟨x4, _ | ⟨x5, _ | ⟨x6, _ | ⟨x7, more⟩⟩⟩⟩⟩⟩⟩
    · rw [htoks] at h2
      exact absurd h2 (by simp)
    · rw [htoks] at h2
      exact absurd h2 (by simp)
    · rw [htoks] at h2
      exact absurd h2 (by simp)
    · simp [matchLine, hh, htoks]
    · simp [matchLine, hh, htoks]
    · simp [matchLine, hh, htoks]
    · simp [matchLine, hh, htoks]
    · rw [htoks] at h2
      have hx : x3 = pr := Option.some.inj h2
      simp [matchLine, hh, htoks, hx, hd]
  · simp [matchLine, hh]

/-- C10 witness: a seven-token line with non-digit priority "1x0" does not
match. -/
theorem hsrp_c10_priority_digits_witness :
    matchLine ("Eth0 2 1x0 Standby 10.0.1.1 10.0.1.2 10.0.1.254".data) = none :=
  hsrp_c10_priority_digits _ (['1', 'x', '0']) (by decide) (by decide)

/-- C6: an expectation entry whose group is absent from the observed-state
mapping is not an error: the lookup falls back to the empty token `""` and
every set flag produces the fixed failure message — standby-only, active-only
and both-flags entries are covered by the three conjuncts. -/
theorem hsrp_c6_absent_group :
    (∀ (sd : List (String × String)) (dev : String) (c : Condition),
        dget? c.Group sd = none → c.ExpectedActiveState = "" →
        c.ExpectedStandbyState ≠ "" →
        validate_hsrp sd [c] dev =
          [("grp" ++ c.Group,
            { Active := none,
              Standby := some ("Failed : " ++ dev ++ " No longer Standby") })]) ∧
    (∀ (sd : List (String × String)) (dev : String) (c : Condition),
        dget? c.Group sd = none → c.ExpectedActiveState ≠ "" →
        c.ExpectedStandbyState = "" →
        validate_hsrp sd [c] dev =
          [("grp" ++ c.Group,
            { Active := some ("Failed : " ++ dev ++ " No longer Active"),
              Standby := none })]) ∧
    (∀ (sd : List (String × String)) (dev : String) (c : Condition),
        dget? c.Group sd = none → c.ExpectedActiveState ≠ "" →
        c.ExpectedStandbyState ≠ "" →
        validate_hsrp sd [c] dev =
          [("grp" ++ c.Group,
            { Active := some ("Failed : " ++ dev ++ " No longer Active"),
              Standby := some ("Failed : " ++ dev ++ " No longer Standby") })]) := by
  refine ⟨?_, ?_, ?_⟩
  · intro sd dev c habs hA hS
    have hA2 : toLowerStr c.ExpectedActiveState = "" :=
      (toLowerStr_eq_empty_iff _).mpr hA
    have hS2 : toLowerStr c.ExpectedStandbyState ≠ "" :=
      fun h => hS ((toLowerStr_eq_empty_iff _).mp h)
    show vstep sd dev [] c = _
    simp only [vstep, habs, Option.getD_none]
    rw [if_neg (not_not_intro hA2), if_pos hS2,
      if_neg (by decide : ¬("" : String) = "standby")]
    rfl
  · intro sd dev c habs hA hS
    have hA2 : toLowerStr c.ExpectedActiveState ≠ "" :=
      fun h => hA ((toLowerStr_eq_empty_iff _).mp h)
    have hS2 : toLowerStr c.ExpectedStandbyState = "" :=
      (toLowerStr_eq_empty_iff _).mpr hS
    show vstep sd dev [] c = _
    simp only [vstep, habs, Option.getD_none]
    rw [if_pos hA2, if_neg (not_not_intro hS2),
      if_neg (by decide : ¬("" : String) = "active")]
    rfl
  · intro sd dev c habs hA hS
    have hA2 : toLowerStr c.ExpectedActiveState ≠ "" :=
      fun h => hA ((toLowerStr_eq_empty_iff _).mp h)
    have hS2 : toLowerStr c.ExpectedStandbyState ≠ "" :=
      fun h => hS ((toLowerStr_eq_empty_iff _).mp h)
    show vstep sd dev [] c = _
    simp only [vstep, habs, Option.getD_none]
    rw [if_pos hA2, if_pos hS2,
      if_neg (by decide : ¬("" : String) = "active"),
      if_neg (by decide : ¬("" : String) = "standby"), dget?_dinsert_self]
    simp [dinsert]

/-- C6 witness: the spec's Example 3 — no observed group "2", expectation
standby-only on group "2", device "CPE2". -/
theorem hsrp_c6_absent_group_witness :
    validate_hsrp [("3", "active")] [⟨"2", "", "Standby"⟩] "CPE2" =
      [("grp2", { Active := none,
                  Standby := some "Failed : CPE2 No longer Standby" })] := by
  have h := hsrp_c6_absent_group.1 [("3", "active")] "CPE2" ⟨"2", "", "Standby"⟩
    (by decide) rfl (by decide)
  exact h.trans (by decide)

/-- C8: a single expectation entry with both flags set yields one GroupVerdict
under the composite key containing both fields, each computed independently
from the same single lookup `(dget? c.Group sd).getD ""` of the observed
state. -/
theorem hsrp_c8_both_flags :
    ∀ (sd : List (String × String)) (dev : String) (c : Condition),
      c.ExpectedActiveState ≠ "" → c.ExpectedStandbyState ≠ "" →
      validate_hsrp sd [c] dev =
        [("grp" ++ c.Group,
          { Active := some (if (dget? c.Group sd).getD "" = "active" then "pass"
              else "Failed : " ++ dev ++ " No longer Active"),
            Standby := some (if (dget? c.Group sd).getD "" = "standby" then "pass"
              else "Failed : " ++ dev ++ " No longer Standby") })] := by
  intro sd dev c hA hS
  have hA2 : toLowerStr c.ExpectedActiveState ≠ "" :=
    fun h => hA ((toLowerStr_eq_empty_iff _).mp h)
  have hS2 : toLowerStr c.ExpectedStandbyState ≠ "" :=
    fun h => hS ((toLowerStr_eq_empty_iff _).mp h)
  show vstep sd dev [] c = _
  simp only [vstep]
  rw [if_pos hA2, if_pos hS2, dget?_dinsert_self]
  simp [dinsert]

/-- C8 witness: both flags set, observed state "standby" — active fails,
standby passes, both fields present in the single verdict. -/
theorem hsrp_c8_both_flags_witness :
    validate_hsrp [("1", "standby")] [⟨"1", "Active", "Standby"⟩] "CPE1" =
      [("grp1", { Active := some "Failed : CPE1 No longer Active",
                  Standby := some "pass" })] := by
  have h := hsrp_c8_both_flags [("1", "standby")] "CPE1" ⟨"1", "Active", "Standby"⟩
    (by decide) (by decide)
  exact h.trans (by decide)

/-- C3: for every expectation entry with expectActive set (a non-empty
ExpectedActiveState), the final DeviceResult contains a verdict at the
entry's composite key whose Active field is "pass" exactly when the observed
state for that group is "active", and the fixed failure message naming the
device otherwise (including an absent group); and when no entry for a group
sets expectActive, any verdict produced for that group has no Active field.
This holds over arbitrary expectation lists: later entries for the same
group either rewrite the Active field with the same value (the
expected_active branch) or preserve it (the merging expected_standby
branch). -/
theorem hsrp_c3_active_result :
    (∀ (sd : List (String × String)) (conds : List Condition) (dev : String)
        (c : Condition), c ∈ conds → c.ExpectedActiveState ≠ "" →
        (dget? ("grp" ++ c.Group) (validate_hsrp sd conds dev)).isSome = true ∧
        ((dget? ("grp" ++ c.Group) (validate_hsrp sd conds dev)).getD {}).Active =
          some (if (dget? c.Group sd).getD "" = "active" then "pass"
            else "Failed : " ++ dev ++ " No longer Active")) ∧
    (∀ (sd : List (String × String)) (conds : List Condition) (dev : String)
        (g : String) (gv : Verdict),
        (∀ c ∈ conds, c.Group = g → c.ExpectedActiveState = "") →
        dget? ("grp" ++ g) (validate_hsrp sd conds dev) = some gv →
        gv.Active = none) := by
  constructor
  · intro sd conds dev c hmem hA
    have hA2 : toLowerStr c.ExpectedActiveState ≠ "" :=
      fun h => hA ((toLowerStr_eq_empty_iff _).mp h)
    obtain ⟨l1, l2, rfl⟩ := List.append_of_mem hmem
    have h1 : ∃ gv, dget? ("grp" ++ c.Group)
        ((l1 ++ c :: l2).foldl (vstep sd dev) []) = some gv ∧
        gv.Active = some (if (dget? c.Group sd).getD "" = "active" then "pass"
          else "Failed : " ++ dev ++ " No longer Active") := by
      rw [List.foldl_append, List.foldl_cons]
      exact foldl_vstep_active_preserve sd dev c.Group l2 _
        (vstep_active_establish sd dev c (l1.foldl (vstep sd dev) []) hA2)
    obtain ⟨gv, hget, hact⟩ := h1
    have hget2 : dget? ("grp" ++ c.Group)
        (validate_hsrp sd (l1 ++ c :: l2) dev) = some gv := hget
    rw [hget2]
    exact ⟨by simp, by simpa using hact⟩
  · intro sd conds dev g gv hflags hget
    refine foldl_vstep_active_none sd dev g conds []
      (fun c hc hcg => (toLowerStr_eq_empty_iff _).mpr (hflags c hc hcg))
      ?_ gv hget
    intro gv0 h0
    simp [dget?] at h0

/-- C3 witness: part one at observed "active" (verdict present, Active =
"pass"), part two at a standby-only entry (Active field absent). -/
theorem hsrp_c3_active_result_witness :
    ((dget? ("grp" ++ "1") (validate_hsrp [("1", "active")]
        [⟨"1", "Active", ""⟩] "CPE1")).isSome = true ∧
      ((dget? ("grp" ++ "1") (validate_hsrp [("1", "active")]
        [⟨"1", "Active", ""⟩] "CPE1")).getD {}).Active = some "pass") ∧
    ((dget? ("grp" ++ "2") (validate_hsrp [] [⟨"2", "", "Standby"⟩]
        "CPE2")).getD {}).Active = none := by
  constructor
  · have h := hsrp_c3_active_result.1 [("1", "active")] [⟨"1", "Active", ""⟩]
      "CPE1" ⟨"1", "Active", ""⟩ (by simp) (by decide)
    exact ⟨h.1, h.2.trans (by decide)⟩
  · have hlook : dget? ("grp" ++ "2")
        (validate_hsrp [] [⟨"2", "", "Standby"⟩] "CPE2")
        = some ⟨none, some "Failed : CPE2 No longer Standby"⟩ := by decide
    have h := hsrp_c3_active_result.2 [] [⟨"2", "", "Standby"⟩] "CPE2" "2" _
      (by intro c hc hg; rw [List.mem_singleton] at hc; subst hc; rfl) hlook
    rw [hlook]
    exact h

/-- C7: the parsed mapping has at most one entry per group (no duplicate
keys), and when several record lines carry the same group token the state of
the last such line is the one stored — later matching lines overwrite
earlier ones. -/
theorem hsrp_c7_last_wins :
    (∀ output : String,
        ((parse_show_standby_brief output).map Prod.fst).Nodup) ∧
    (∀ (output : String) (pre post : List (List Char)) (line g s : List Char),
        splitLines output.data = pre ++ line :: post →
        matchLine line = some (g, s) →
        (∀ l2 ∈ post, ∀ s2, matchLine l2 ≠ some (g, s2)) →
        dget? (String.mk g) (parse_show_standby_brief output) =
          some (String.mk s)) := by
  constructor
  · intro output
    exact nodup_keys_foldl_pstep (splitLines output.data) [] (by simp)
  · intro output pre post line g s hsplit hm hlater
    have hpost : ∀ l2 ∈ post, ∀ g2 s2, matchLine l2 = some (g2, s2) → g2 ≠ g := by
      intro l2 hl2 g2 s2 hm2 heq
      exact hlater l2 hl2 s2 (by rw [← heq]; exact hm2)
    show dget? (String.mk g) ((splitLines output.data).foldl pstep []) =
      some (String.mk s)
    rw [hsplit, List.foldl_append, List.foldl_cons,
      foldl_pstep_preserve g post _ hpost]
    simp [pstep, hm, dget?_dinsert_self]

/-- C7 witness: two lines for group "1", observed "Active" then "Standby";
the mapping stores the last line's state "standby". -/
theorem hsrp_c7_last_wins_witness :
    dget? "1" (parse_show_standby_brief
      "Gi0/1 1 110 Active 10.0.0.1 10.0.0.2 10.0.0.254\nGi0/1 1 110 Standby 10.0.0.2 10.0.0.1 10.0.0.254")
      = some "standby" := by
  have h := hsrp_c7_last_wins.2
    "Gi0/1 1 110 Active 10.0.0.1 10.0.0.2 10.0.0.254\nGi0/1 1 110 Standby 10.0.0.2 10.0.0.1 10.0.0.254"
    ["Gi0/1 1 110 Active 10.0.0.1 10.0.0.2 10.0.0.254".data] []
    ("Gi0/1 1 110 Standby 10.0.0.2 10.0.0.1 10.0.0.254".data)
    ("1".data) ("standby".data)
    (by decide) (by decide) (by intro l2 hl2 s2; simp at hl2)
  exact h

/-- C4 amended: for every input line that begins with a non-whitespace
character, splits into at least seven whitespace-delimited tokens, and whose
third token consists entirely of decimal digits, the parser maps the 2nd
token, taken verbatim, to the 4th token lowercased, regardless of any
malformed surrounding lines — provided no later line in the same input also
matches the record pattern with the same 2nd token (in which case the later
line wins, per overwrite semantics). -/
theorem hsrp_c4_amended :
    ∀ (output : String) (pre post : List (List Char)) (line : List Char)
      (t1 g pr st a5 a6 a7 : List Char) (more : List (List Char)),
      splitLines output.data = pre ++ line :: post →
      headNonWS line = true →
      tokenizeCh line = t1 :: g :: pr :: st :: a5 :: a6 :: a7 :: more →
      pr.all Char.isDigit = true →
      (∀ l2 ∈ post, ∀ g2 s2, matchLine l2 = some (g2, s2) → g2 ≠ g) →
      dget? (String.mk g) (parse_show_standby_brief output) =
        some (String.mk (toLowerCh st)) := by
  intro output pre post line t1 g pr st a5 a6 a7 more hsplit hhead htoks hpr hlater
  have hm : matchLine line = some (g, toLowerCh st) :=
    matchLine_eq_some_of_shape htoks hhead hpr
  show dget? (String.mk g) ((splitLines output.data).foldl pstep []) =
    some (String.mk (toLowerCh st))
  rw [hsplit, List.foldl_append, List.foldl_cons,
    foldl_pstep_preserve g post _ hlater]
  simp [pstep, hm, dget?_dinsert_self]

/-- C4 amended witness: a well-formed line surrounded by a malformed banner
line maps its 2nd token "7" to its lowercased 4th token "standby". -/
theorem hsrp_c4_amended_witness :
    dget? "7" (parse_show_standby_brief
      "P indicates configured to preempt.\nGi0/2 7 90 Standby 10.0.2.1 10.0.2.2 10.0.2.254")
      = some "standby" := by
  have h := hsrp_c4_amended
    "P indicates configured to preempt.\nGi0/2 7 90 Standby 10.0.2.1 10.0.2.2 10.0.2.254"
    ["P indicates configured to preempt.".data] []
    ("Gi0/2 7 90 Standby 10.0.2.1 10.0.2.2 10.0.2.254".data)
    ("Gi0/2".data) ("7".data) ("90".data) ("Standby".data)
    ("10.0.2.1".data) ("10.0.2.2".data) ("10.0.2.254".data) []
    (by decide) (by decide) (by decide) (by decide) (by simp)
  exact h.trans (by decide)

/-- C5 amended: a group key is present in the parsed mapping exactly when
some line of the input begins with a non-whitespace character, splits into
at least seven whitespace-delimited tokens with that group as 2nd token, and
has an all-digit third token; lines with extra trailing tokens still
contribute, and any line failing one of these conditions (including
seven-token lines with a non-digit third token) contributes nothing. -/
theorem hsrp_c5_amended :
    ∀ (output : String) (k : String),
      (dget? k (parse_show_standby_brief output)).isSome = true ↔
      ∃ line ∈ splitLines output.data, ∃ t1 g pr st a5 a6 a7 more,
        tokenizeCh line = t1 :: g :: pr :: st :: a5 :: a6 :: a7 :: more ∧
        headNonWS line = true ∧
        pr.all Char.isDigit = true ∧
        k = String.mk g := by
  intro output k
  have hmain := dget?_foldl_pstep_isSome k (splitLines output.data) []
  show (dget? k ((splitLines output.data).foldl pstep [])).isSome = true ↔ _
  rw [hmain]
  simp only [dget?, Option.isSome_none, Bool.false_eq_true, false_or]
  constructor
  · rintro ⟨l, hl, g, s, hm, hk⟩
    obtain ⟨hh, t1, pr, st, a5, a6, a7, more, htoks, hpr, hs⟩ :=
      shape_of_matchLine_eq_some hm
    exact ⟨l, hl, t1, g, pr, st, a5, a6, a7, more, htoks, hh, hpr, hk⟩
  · rintro ⟨l, hl, t1, g, pr, st, a5, a6, a7, more, htoks, hh, hpr, hk⟩
    exact ⟨l, hl, g, toLowerCh st, matchLine_eq_some_of_shape htoks hh hpr, hk⟩

/-- C5 amended witness: an eight-token line contributes its group key. -/
theorem hsrp_c5_amended_witness :
    (dget? "1" (parse_show_standby_brief "Gi0/1 1 110 Active a b c d")).isSome
      = true :=
  (hsrp_c5_amended "Gi0/1 1 110 Active a b c d" "1").mpr
    ⟨"Gi0/1 1 110 Active a b c d".data, by decide,
      "Gi0/1".data, "1".data, "110".data, "Active".data,
      "a".data, "b".data, "c".data, ["d".data],
      by decide, by decide, by decide, rfl⟩
